import Mathlib

/-!
Verification of the path.jerryio3050X core against its specification.

The development shallowly embeds the program's data model and operations:
pure functions become Lean functions over ℚ (JavaScript numbers are modelled
by exact rationals), stateful methods become explicit state-passing functions.
Object identity (mobx observables, shared control points) is modelled by
stable uids carried in the structures.  Components whose source is not part
of the repository snapshot (the sampling engine, the command history, the
unit converter) are modelled from the specification text; each such
definition carries a doc comment starting with "Modelled from the spec:".
-/

namespace PathJerryio

/-! ## Geometry primitives -/

/-- A 2D point with rational coordinates. -/
abbrev Point := ℚ × ℚ

/-- Newton iteration for the integer square root, with explicit fuel so that
it unfolds by plain structural recursion. -/
def isqrtGo : ℕ → ℕ → ℕ → ℕ
  | 0, _, guess => guess
  | fuel + 1, n, guess =>
    let next := (guess + n / guess) / 2
    if next < guess then isqrtGo fuel n next else guess

/-- The integer square root (rounded down). -/
def natSqrt (n : ℕ) : ℕ :=
  if n ≤ 1 then n else isqrtGo n n (n / 2 + 1)

/-- Modelled from the spec: exact rational square root, used to embed the
Euclidean distance of the geometry layer (source file `core/Path.tsx` /
`core/Calculation.tsx` is not in the snapshot).  On perfect-square inputs
(numerator and denominator both perfect squares) this is the exact Euclidean
value; all concrete inputs used below are of that form. -/
def ratSqrt (x : ℚ) : ℚ :=
  (natSqrt x.num.toNat : ℚ) / (natSqrt x.den : ℚ)

/-- Floor of a rational as an integer, by floor division of the numerator by
the denominator. -/
def ratFloor (q : ℚ) : ℤ :=
  q.num / (q.den : ℤ)

/-- Ceiling of a rational as an integer. -/
def ratCeil (q : ℚ) : ℤ :=
  -ratFloor (-q)

/-- Euclidean distance between two points (exact on perfect-square inputs). -/
def edist (p q : Point) : ℚ :=
  ratSqrt ((q.1 - p.1) ^ 2 + (q.2 - p.2) ^ 2)

/-- Linear interpolation between two points. -/
def lerp (p q : Point) (t : ℚ) : Point :=
  (p.1 + (q.1 - p.1) * t, p.2 + (q.2 - p.2) * t)

/-! ## Unit conversion (spec §4.1)

The source file `core/Unit.tsx` is not in the snapshot; only its callers are
(`MainApp.tsx`, the format implementation).  The converter is therefore
modelled from the spec: "UnitConverter computes a fixed scale ratio between
two length units from a unit table and converts a scalar or a Vector's
coordinates". -/

/-- Modelled from the spec: the unit-of-length enumeration used by the unit
table (the callers in the snapshot mention Centimeter and Inch). -/
inductive UnitOfLength where
  | millimeter
  | centimeter
  | meter
  | inch
  | foot
deriving DecidableEq, Repr

/-- Modelled from the spec: the unit table, giving each unit's scale
relative to a millimeter. -/
def uolScale : UnitOfLength → ℚ
  | UnitOfLength.millimeter => 1
  | UnitOfLength.centimeter => 10
  | UnitOfLength.meter => 1000
  | UnitOfLength.inch => 254 / 10
  | UnitOfLength.foot => 3048 / 10

/-- Modelled from the spec: a UnitConverter holds the two units it converts
between; its ratio is fixed from the unit table. -/
structure UnitConverter where
  fromUOL : UnitOfLength
  toUOL : UnitOfLength
deriving DecidableEq, Repr

/-- Modelled from the spec: scalar conversion by the fixed scale ratio. -/
def UnitConverter.fromAtoB (uc : UnitConverter) (x : ℚ) : ℚ :=
  x * (uolScale uc.fromUOL / uolScale uc.toUOL)

/-- Modelled from the spec: conversion of a Vector converts each coordinate. -/
def UnitConverter.fromAtoBVec (uc : UnitConverter) (v : Point) : Point :=
  (uc.fromAtoB v.1, uc.fromAtoB v.2)

/-! ## Modals (from the snapshot's `Modals` class) -/

/-- State of the `Modals` store: the currently opening modal (its symbol and
the priority it was opened with), or none.  JavaScript `Symbol`s are modelled
by natural numbers, priorities by rationals. -/
structure ModalsState where
  opening : Option (ℕ × ℚ)
deriving DecidableEq, Repr

/-- Embedding of `Modals.open(symbol, priority)`: succeeds iff no modal is
open or the open modal's priority is ≤ the requested priority in which case
the requested modal replaces it; returns the boolean result and the new
state. -/
def modalsOpen (s : ModalsState) (symbol : ℕ) (priority : ℚ) : Bool × ModalsState :=
  match s.opening with
  | none => (true, ⟨some (symbol, priority)⟩)
  | some op => if op.2 ≤ priority then (true, ⟨some (symbol, priority)⟩) else (false, s)

/-- Embedding of `Modals.close(symbol?)`: clears the opening modal when
called with no argument or when the currently opening modal's symbol matches
the argument. -/
def modalsClose (s : ModalsState) (symbol : Option ℕ) : ModalsState :=
  match symbol with
  | none => ⟨none⟩
  | some y => if s.opening.map Prod.fst = some y then ⟨none⟩ else s

/-! ## Command history (spec §4.4)

The source file `core/Command.tsx` is not in the snapshot; only its callers
are.  The whole component is therefore modelled from the spec.  `σ` is the
type of the mutable model the commands act on. -/

/-- Modelled from the spec: a Command is "polymorphic over {apply(),
inverse()}".  The spec's §8 contract "execute(C); undo() restores every field
C touched to its exact prior value" is carried as the field `inverse_apply`:
a command's inverse undoes its apply. -/
structure Command (σ : Type) where
  apply : σ → σ
  inverse : σ → σ
  inverse_apply : ∀ s, inverse (apply s) = s

/-- Modelled from the spec: "CommandHistory: ordered log `done`, ordered log
`undone`, a saved-marker position".  The saved marker is the length of `done`
at the last save, or `none` once truncation made the saved position
unreachable (permanently modified). -/
structure CommandHistory (σ : Type) where
  done : List (Command σ)
  undone : List (Command σ)
  savedMarker : Option ℕ

/-- The history state produced by `clearHistory()`: empty `done`/`undone`,
saved marker reset to "nothing modified". -/
def CommandHistory.cleared {σ : Type} : CommandHistory σ :=
  { done := [], undone := [], savedMarker := some 0 }

/-- Modelled from the spec: `isModified()` is "true unless current `done`
length/position equals `savedMarker`". -/
def isModified {σ : Type} (h : CommandHistory σ) : Bool :=
  !(h.savedMarker == some h.done.length)

/-- A command history together with the model it mutates. -/
structure HistoryState (σ : Type) where
  model : σ
  hist : CommandHistory σ

/-- Modelled from the spec: `execute` runs the apply effect, appends to
`done`, clears `undone` entirely, then truncates `done` to the fixed maximum
size `maxSize` (oldest dropped); if truncation removes the entry at the
saved marker the marker becomes unreachable. -/
def execute {σ : Type} (maxSize : ℕ) (c : Command σ) (s : HistoryState σ) : HistoryState σ :=
  let doneAppended := s.hist.done ++ [c]
  let dropCount := doneAppended.length - maxSize
  { model := c.apply s.model
    hist :=
      { done := doneAppended.drop dropCount
        undone := []
        savedMarker :=
          match s.hist.savedMarker with
          | none => none
          | some m => if m < dropCount then none else some (m - dropCount) } }

/-- Modelled from the spec: `undo()` is a no-op if `done` is empty; else it
pops the last entry of `done`, runs its inverse, and pushes it to `undone`. -/
def undo {σ : Type} (s : HistoryState σ) : HistoryState σ :=
  match s.hist.done.getLast? with
  | none => s
  | some c =>
    { model := c.inverse s.model
      hist :=
        { done := s.hist.done.dropLast
          undone := s.hist.undone ++ [c]
          savedMarker := s.hist.savedMarker } }

/-- Modelled from the spec: `redo()` is a no-op if `undone` is empty; else it
pops the last entry of `undone`, runs its apply, and pushes it to `done`. -/
def redo {σ : Type} (s : HistoryState σ) : HistoryState σ :=
  match s.hist.undone.getLast? with
  | none => s
  | some c =>
    { model := c.apply s.model
      hist :=
        { done := s.hist.done ++ [c]
          undone := s.hist.undone.dropLast
          savedMarker := s.hist.savedMarker } }

/-- Executing a whole list of commands in order. -/
def executeList {σ : Type} (maxSize : ℕ) (cs : List (Command σ)) (s : HistoryState σ) :
    HistoryState σ :=
  cs.foldl (fun st c => execute maxSize c st) s

/-- Calling `undo()` a given number of times. -/
def undoTimes {σ : Type} : ℕ → HistoryState σ → HistoryState σ
  | 0, s => s
  | n + 1, s => undoTimes n (undo s)

/-! ## Control / Segment / Path data model (spec §3, `core/Path.tsx` not in
the snapshot; structures modelled from the spec, with the stable uid
standing in for object identity) -/

/-- A Control: 2D point with stable uid, visible flag, lock flag.  The uid
models the JavaScript object identity. -/
structure Control where
  uid : ℕ
  x : ℚ
  y : ℚ
  visible : Bool
  lock : Bool
deriving DecidableEq, Repr

/-- Position of a control as a point. -/
def Control.pos (c : Control) : Point := (c.x, c.y)

/-- A Segment: first endpoint, the (empty or two-element) list of middle
handles, and last endpoint; the linear/cubic variant is determined by the
point count. -/
structure Segment where
  first : Control
  mids : List Control
  last : Control
deriving DecidableEq, Repr

/-- The ordered control list of a segment (2 controls when linear, 4 when
cubic). -/
def Segment.controls (s : Segment) : List Control :=
  s.first :: (s.mids ++ [s.last])

/-- A speed/bent-rate range: {minLimit, maxLimit, from, to}. -/
structure NumberRange where
  minLimit : ℚ
  maxLimit : ℚ
  fromValue : ℚ
  toValue : ℚ
deriving DecidableEq, Repr

/-- Per-path configuration (the parts the claims are about). -/
structure PathConfig where
  speedLimit : NumberRange
  bentRateApplicableRange : NumberRange
deriving DecidableEq, Repr

/-- A Path: uid, display name, ordered segments, config, visible/lock. -/
structure Path where
  uid : ℕ
  name : String
  segments : List Segment
  pc : PathConfig
  visible : Bool
  lock : Bool
deriving DecidableEq, Repr

/-- Modelled from the spec: the `controls` traversal of a path
(`core/Path.tsx` not in the snapshot).  Adjacent segments share their
endpoint, so each segment after the first contributes its controls without
its first one. -/
def Path.controls (p : Path) : List Control :=
  match p.segments with
  | [] => []
  | s :: ss => s.controls ++ ss.flatMap (fun t => t.controls.tail)

/-- The GeneralConfig fields the core reads (spec §6). -/
structure GeneralConfig where
  robotWidth : ℚ
  robotHeight : ℚ
  pointDensity : ℚ
  controlMagnetDistance : ℚ
  uol : UnitOfLength
  showRobot : Bool
deriving DecidableEq, Repr

/-- A Format: its init flag, its (mutable) general config, and its class
defaults used by `createNewInstance` / `buildPathConfig`. -/
structure Format where
  isInit : Bool
  gc : GeneralConfig
  defaultGC : GeneralConfig
  defaultPC : PathConfig
deriving DecidableEq, Repr

/-- Embedding of `format.createNewInstance()`: a fresh, uninitialized
instance of the same format class with default general config. -/
def Format.createNewInstance (f : Format) : Format :=
  { f with isInit := false, gc := f.defaultGC }

/-- Embedding of `format.init()`: marks the format initialized (suspending
the format reaction). -/
def Format.init (f : Format) : Format :=
  { f with isInit := true }

/-- Embedding of `format.buildPathConfig()`: a fresh default path config. -/
def Format.buildPathConfig (f : Format) : PathConfig :=
  f.defaultPC

/-- The payload of a path file: general config and path list. -/
structure PathFileData where
  gc : GeneralConfig
  paths : List Path
deriving DecidableEq, Repr

/-! ## MainApp (from the snapshot's `MainApp.tsx`) -/

/-- The MainApp state the claims are about.  `σ` is the command-history
model type. -/
structure MainAppState (σ : Type) where
  format : Format
  usingUOL : UnitOfLength
  paths : List Path
  selected : List ℕ
  selectedBefore : List ℕ
  expanded : List ℕ
  lastInterestedPath : Option ℕ
  robotPositionVisible : Bool
  fieldOffset : Point
  fieldScale : ℚ
  history : CommandHistory σ

/-- Embedding of `MainApp.resetUserControl()` (the magnet sentinel of the
source, an infinite vector, is not carried by the model). -/
def resetUserControl {σ : Type} (s : MainAppState σ) : MainAppState σ :=
  { s with selected := [], expanded := [], lastInterestedPath := none,
           robotPositionVisible := false }

/-- Embedding of `MainApp.resetFieldDisplay()`. -/
def resetFieldDisplay {σ : Type} (s : MainAppState σ) : MainAppState σ :=
  { s with fieldOffset := (0, 0), fieldScale := 1 }

/-- The relinking loop of `setPathFileData` from its second iteration on:
each segment's first control is replaced by the previous segment's last
control (`path.segments[j].first = path.segments[j-1].last`). -/
def relinkRest (prevLast : Control) : List Segment → List Segment
  | [] => []
  | t :: rest =>
    let t2 := { t with first := prevLast }
    t2 :: relinkRest t2.last rest

/-- The whole relinking loop of `setPathFileData`: the first segment is kept
and every later segment is linked to its predecessor. -/
def relinkSegments : List Segment → List Segment
  | [] => []
  | s :: rest => s :: relinkRest s.last rest

/-- Name handling of `setPathFileData`: the DOMPurify sanitizer is outside
the model (treated as the identity); an empty result is replaced by
"Path". -/
def sanitizeName (n : String) : String :=
  if n = "" then "Path" else n

/-- Per-path load step of `setPathFileData`: sanitize the name, relink the
segments. -/
def loadPath (p : Path) : Path :=
  { p with name := sanitizeName p.name, segments := relinkSegments p.segments }

/-- Embedding of `MainApp.setPathFileData(format, pfd)`: relink and load the
paths, expand them, install the format, reset user control and field
display (which clears the freshly built expansion again, as in the source),
and clear the history. -/
def setPathFileData {σ : Type} (s : MainAppState σ) (format : Format) (pfd : PathFileData) :
    MainAppState σ :=
  let loaded := pfd.paths.map loadPath
  let s1 := { s with expanded := loaded.map Path.uid
                     format := format
                     usingUOL := format.gc.uol
                     paths := loaded }
  let s2 := resetFieldDisplay (resetUserControl s1)
  { s2 with history := CommandHistory.cleared }

/-- Embedding of `MainApp.newPathFile()`. -/
def newPathFile {σ : Type} (s : MainAppState σ) : MainAppState σ :=
  let newFormat := s.format.createNewInstance.init
  let s1 := { s with format := newFormat, usingUOL := newFormat.gc.uol, paths := [] }
  let s2 := resetFieldDisplay (resetUserControl s1)
  { s2 with history := CommandHistory.cleared }

/-- Modelled from the spec: `convertGeneralConfigUOL` (source
`format/Config.tsx` not in the snapshot) converts the general config's
length-valued fields from the given old unit to the config's current unit
with the UnitConverter's fixed scale ratio. -/
def convertGeneralConfigUOL (gc : GeneralConfig) (fromUOL : UnitOfLength) : GeneralConfig :=
  let uc : UnitConverter := ⟨fromUOL, gc.uol⟩
  { gc with robotWidth := uc.fromAtoB gc.robotWidth
            robotHeight := uc.fromAtoB gc.robotHeight
            pointDensity := uc.fromAtoB gc.pointDensity
            controlMagnetDistance := uc.fromAtoB gc.controlMagnetDistance }

/-- Modelled from the spec: `convertPathConfigPointDensity` (source
`format/Config.tsx` not in the snapshot) is not described by the spec; the
calling code's comments state that the bent-rate application range is kept
across a format switch, so the helper is modelled as the identity on the
path config. -/
def convertPathConfigPointDensity (pc : PathConfig) (_oldDensity _newDensity : ℚ) : PathConfig :=
  pc

/-- Embedding of the format reaction in the `MainApp` constructor: when the
new format (already stored in the state, as mobx fires the reaction after
the assignment) is not initialized, initialize it, copy robot width/height
from the old general config, convert the general config to the old unit of
length, restore the new config's point density, rebuild every path config
(keeping the speed limit when the limits agree and always keeping the
bent-rate applicable range), reset user control and clear the history. -/
def formatReaction {σ : Type} (oldFormat : Format) (s : MainAppState σ) : MainAppState σ :=
  if s.format.isInit then s
  else
    let newFormat := s.format.init
    let oldGC := oldFormat.gc
    let keepPointDensity := newFormat.gc.pointDensity
    let gc1 := { newFormat.gc with robotWidth := oldGC.robotWidth
                                   robotHeight := oldGC.robotHeight }
    let gc2 := convertGeneralConfigUOL gc1 oldGC.uol
    let gc3 := { gc2 with pointDensity := keepPointDensity }
    let newPaths := s.paths.map (fun p =>
      let npc := newFormat.buildPathConfig
      let npc1 := if npc.speedLimit.minLimit = p.pc.speedLimit.minLimit ∧
                     npc.speedLimit.maxLimit = p.pc.speedLimit.maxLimit
                  then { npc with speedLimit := p.pc.speedLimit } else npc
      let npc2 := { npc1 with bentRateApplicableRange := p.pc.bentRateApplicableRange }
      { p with pc := convertPathConfigPointDensity npc2 oldGC.pointDensity gc3.pointDensity })
    let s1 := { s with format := { newFormat with gc := gc3 }, paths := newPaths }
    let s2 := resetUserControl s1
    { s2 with history := CommandHistory.cleared }

/-! ## Area selection (from the snapshot's `MainApp.tsx`) -/

/-- Modelled from the spec: `Control.isWithinArea(from, to)` (source
`core/Path.tsx` not in the snapshot): the control's position lies in the
axis-aligned rectangle with corners `from` and `to`. -/
def Control.isWithinArea (c : Control) (fromP toP : Point) : Bool :=
  decide (fromP.1 ≤ c.x ∧ c.x ≤ toP.1 ∧ fromP.2 ≤ c.y ∧ c.y ≤ toP.2)

/-- Embedding of the `selectablePaths` getter: visible, unlocked paths. -/
def selectablePaths {σ : Type} (s : MainAppState σ) : List Path :=
  s.paths.filter (fun p => p.visible && !p.lock)

/-- Embedding of the `selectableControls` getter: visible, unlocked controls
of selectable paths. -/
def selectableControls {σ : Type} (s : MainAppState σ) : List Control :=
  (selectablePaths s).flatMap (fun p => p.controls.filter (fun c => c.visible && !c.lock))

/-- Embedding of `MainApp.startAreaSelection()`. -/
def startAreaSelection {σ : Type} (s : MainAppState σ) : MainAppState σ :=
  { s with selectedBefore := s.selected }

/-- First-occurrence duplicate removal, the behaviour of the source's
`Array.from(new Set(selected))`; `seen` accumulates the already kept
elements. -/
def jsDedupGo (seen : List ℕ) : List ℕ → List ℕ
  | [] => []
  | x :: xs => if x ∈ seen then jsDedupGo seen xs else x :: jsDedupGo (x :: seen) xs

/-- Duplicate removal keeping first occurrences. -/
def jsDedup (l : List ℕ) : List ℕ :=
  jsDedupGo [] l

/-- Embedding of `MainApp.updateAreaSelection(from, to)`: normalize the
rectangle corners, highlight the selectable controls in the area, keep the
outer-excluding-join of the saved selection and the highlighted uids, and
remove duplicates. -/
def updateAreaSelection {σ : Type} (s : MainAppState σ) (fromV toV : Point) : MainAppState σ :=
  let fixedFrom : Point := (min fromV.1 toV.1, min fromV.2 toV.2)
  let fixedTo : Point := (max fromV.1 toV.1, max fromV.2 toV.2)
  let highlighted :=
    ((selectableControls s).filter (fun c => c.isWithinArea fixedFrom fixedTo)).map Control.uid
  let sel := (s.selectedBefore ++ highlighted).filter
    (fun uid => !(decide (uid ∈ s.selectedBefore) && decide (uid ∈ highlighted)))
  { s with selected := jsDedup sel }

/-! ## Sampling engine (spec §4.2, §4.3)

The source file `core/Calculation.tsx` is not in the snapshot; only its
callers are (`getPathSamplePoints` / `getUniformPointsFromSamples` in
`MainApp.tsx`).  The engine is therefore modelled from the spec. -/

/-- Cubic Bezier evaluation at parameter `t` (spec §4.2). -/
def cubicPoint (p0 p1 p2 p3 : Point) (t : ℚ) : Point :=
  let u := 1 - t
  (u ^ 3 * p0.1 + 3 * u ^ 2 * t * p1.1 + 3 * u * t ^ 2 * p2.1 + t ^ 3 * p3.1,
   u ^ 3 * p0.2 + 3 * u ^ 2 * t * p1.2 + 3 * u * t ^ 2 * p2.2 + t ^ 3 * p3.2)

/-- Modelled from the spec: point evaluation of a segment at parametric `t`
(linear: lerp of the endpoints; cubic: the Bernstein polynomial). -/
def Segment.point (s : Segment) (t : ℚ) : Point :=
  match s.mids with
  | [p1, p2] => cubicPoint s.first.pos p1.pos p2.pos s.last.pos t
  | _ => lerp s.first.pos s.last.pos t

/-- Modelled from the spec: the fixed probe resolution used for the arc
length estimate.  The spec fixes no concrete value ("a fixed high-resolution
probe"); the model uses a small fixed constant, and no theorem below depends
on its value. -/
def probeResolution : ℕ := 4

/-- Modelled from the spec: arc length estimate of a segment as the sum of
chord lengths over the fixed probe. -/
def Segment.estimatedLength (s : Segment) : ℚ :=
  (List.range probeResolution).foldl
    (fun acc i =>
      acc + edist (s.point ((i : ℚ) / (probeResolution : ℚ)))
                  (s.point (((i : ℚ) + 1) / (probeResolution : ℚ)))) 0

/-- Modelled from the spec: step count = ceil(estimatedLength / density),
floored to 1 to avoid degenerate zero-length segments. -/
def Segment.stepCount (s : Segment) (density : ℚ) : ℕ :=
  max 1 (ratCeil (s.estimatedLength / density)).toNat

/-- Modelled from the spec: a segment's parametric samples — its position
function evaluated at the evenly spaced parameters i / stepCount,
i = 0 … stepCount. -/
def Segment.samples (s : Segment) (density : ℚ) : List Point :=
  let n := s.stepCount density
  (List.range (n + 1)).map (fun i => s.point ((i : ℚ) / (n : ℚ)))

/-- Modelled from the spec: `sample(path, density)` — concatenate the
per-segment samples in segment order, without duplicating the shared
endpoint (each segment after the first contributes its samples without the
first one). -/
def sample (p : Path) (density : ℚ) : List Point :=
  match p.segments with
  | [] => []
  | s :: ss => s.samples density ++ ss.flatMap (fun t => (t.samples density).tail)

/-- Total Euclidean length of a polyline. -/
def polylineLength : List Point → ℚ
  | [] => 0
  | [_] => 0
  | p :: q :: rest => edist p q + polylineLength (q :: rest)

/-- The point at a given accumulated arc distance along a polyline: linear
interpolation inside the edge containing that distance. -/
def pointAtArc : List Point → ℚ → Point
  | [], _ => (0, 0)
  | [p], _ => p
  | p :: q :: rest, sArc =>
    if sArc < edist p q then lerp p q (sArc / edist p q)
    else pointAtArc (q :: rest) (sArc - edist p q)

/-- Points emitted on one raw edge from `p` to `q`: the edge starts at
accumulated distance `c` and has length `len`; `k` is the index of the next
density multiple to emit and the second argument counts how many multiples
fall inside the edge.  Each emitted point interpolates the bracketing raw
points at the exact crossing distance. -/
def emitOnEdge (p q : Point) (c len d : ℚ) : ℕ → ℕ → List Point
  | _, 0 => []
  | k, n + 1 => lerp p q (((k : ℚ) * d - c) / len) :: emitOnEdge p q c len d (k + 1) n

/-- Number of multiples `m ≥ k` of the density `d` that are crossed strictly
before the accumulated distance `c + len`. -/
def crossingCount (c len d : ℚ) (k : ℕ) : ℕ :=
  (ratCeil ((c + len) / d) - k).toNat

/-- Modelled from the spec: the resampling walk — walk the raw sequence edge
by edge accumulating Euclidean distance, and each time the accumulated
distance crosses a multiple of the density emit a new point by linear
interpolation between the two bracketing raw points at the exact crossing
distance. -/
def walkEdges (d : ℚ) : List Point → ℚ → ℕ → List Point
  | [], _, _ => []
  | [_], _, _ => []
  | p :: q :: rest, c, k =>
    let len := edist p q
    let n := crossingCount c len d k
    emitOnEdge p q c len d k n ++ walkEdges d (q :: rest) (c + len) (k + n)

/-- Modelled from the spec: `resampleUniform(rawPoints, density)` — the
literal first point, the density-multiple crossings of the walk, and the
literal last point. -/
def resampleUniform (raw : List Point) (d : ℚ) : List Point :=
  match raw with
  | [] => []
  | p :: rest =>
    p :: (walkEdges d (p :: rest) 0 1 ++ [(p :: rest).getLast (List.cons_ne_nil p rest)])

/-! ## Concrete demonstration inputs used by witnesses and counterexamples -/

/-- A linear segment from (0,0) to (2,0). -/
def demoSegA : Segment :=
  ⟨⟨1, 0, 0, true, false⟩, [], ⟨2, 2, 0, true, false⟩⟩

/-- A linear segment from (2,0) back to (0,0). -/
def demoSegB : Segment :=
  ⟨⟨2, 2, 0, true, false⟩, [], ⟨3, 0, 0, true, false⟩⟩

/-- A demonstration path config. -/
def demoPC : PathConfig :=
  ⟨⟨0, 600, 40, 120⟩, ⟨0, 1, 0, 1 / 10⟩⟩

/-- A path going out along the x-axis and straight back: two linear segments
(0,0)→(2,0) and (2,0)→(0,0) sharing the endpoint (2,0). -/
def outAndBackPath : Path :=
  { uid := 100, name := "demo", segments := [demoSegA, demoSegB],
    pc := demoPC, visible := true, lock := false }


/-- A demonstration command on the integer model: increment, with decrement
as inverse. -/
def incCmd : Command ℤ :=
  ⟨fun s => s + 1, fun s => s - 1, fun s => by ring⟩

/-- A demonstration initial history state over the integer model. -/
def demoHistState : HistoryState ℤ :=
  ⟨0, ⟨[], [], some 0⟩⟩

/-- A demonstration general config (the default of the demo format class):
point density 2, centimeters. -/
def demoGC : GeneralConfig :=
  ⟨30, 30, 2, 5, UnitOfLength.centimeter, false⟩

/-- An old-format general config whose point density was set to 5 by the
user. -/
def demoOldGC : GeneralConfig :=
  ⟨32, 28, 5, 5, UnitOfLength.centimeter, false⟩

/-- An initialized demonstration format. -/
def demoFormat : Format :=
  ⟨true, demoGC, demoGC, demoPC⟩

/-- A freshly selected, not yet initialized demonstration format, as stored
by a user format switch before the reaction runs. -/
def demoNewFormat : Format :=
  ⟨false, demoGC, demoGC, demoPC⟩

/-- The previously active format, with the user-edited general config. -/
def demoOldFormat : Format :=
  ⟨true, demoOldGC, demoGC, demoPC⟩

/-- A demonstration app state: the stored format is the not-yet-initialized
new format (the situation at format-reaction time), with a nonempty
command history. -/
def demoAppState : MainAppState ℤ :=
  { format := demoNewFormat, usingUOL := UnitOfLength.centimeter,
    paths := [outAndBackPath], selected := [2, 3], selectedBefore := [],
    expanded := [7], lastInterestedPath := some 100, robotPositionVisible := true,
    fieldOffset := (1, 2), fieldScale := 2,
    history := ⟨[incCmd], [incCmd], none⟩ }

/-- A well-formed path file holding the out-and-back path. -/
def demoPFD : PathFileData :=
  ⟨demoGC, [outAndBackPath]⟩

/-- A path whose two segments are not endpoint-linked: the second segment's
first control (uid 3 at (5,5)) differs, in coordinates too, from the first
segment's last control (uid 2 at (1,1)). -/
def mismatchedPath : Path :=
  { uid := 200, name := "broken",
    segments := [⟨⟨1, 0, 0, true, false⟩, [], ⟨2, 1, 1, true, false⟩⟩,
                 ⟨⟨3, 5, 5, true, false⟩, [], ⟨4, 6, 6, true, false⟩⟩],
    pc := demoPC, visible := true, lock := false }

/-- A path file holding the mismatched path. -/
def mismatchedPFD : PathFileData :=
  ⟨demoGC, [mismatchedPath]⟩

/-- The uids of the selectable controls inside the axis-aligned rectangle
spanned by two corners — the highlight set of an area selection, stated the
way claim C8 describes it. -/
def areaHighlight {σ : Type} (s : MainAppState σ) (a b : Point) : List ℕ :=
  ((selectableControls s).filter
    (fun c => c.isWithinArea (min a.1 b.1, min a.2 b.2) (max a.1 b.1, max a.2 b.2))).map
    Control.uid

/-! ## Helper lemmas for the sampling engine -/

theorem ratCeil_eq (q : ℚ) : ratCeil q = Int.ceil q := by
  unfold ratCeil ratFloor
  rw [show (-q).num / ((-q).den : ℤ) = Int.floor (-q) from (Rat.floor_def).symm]
  rw [Int.floor_neg, neg_neg]

theorem ratSqrt_nonneg (x : ℚ) : 0 ≤ ratSqrt x := by
  unfold ratSqrt
  positivity

theorem edist_nonneg (p q : Point) : 0 ≤ edist p q :=
  ratSqrt_nonneg _

theorem polylineLength_nonneg : ∀ l : List Point, 0 ≤ polylineLength l
  | [] => le_refl 0
  | [_] => le_refl 0
  | p :: q :: rest =>
    add_nonneg (edist_nonneg p q) (polylineLength_nonneg (q :: rest))

theorem emitOnEdge_eq (p q : Point) (c len d : ℚ) :
    ∀ (n k : ℕ), emitOnEdge p q c len d k n =
      (List.range' k n).map (fun (m : ℕ) => lerp p q (((m : ℚ) * d - c) / len)) := by
  intro n
  induction n with
  | zero => intro k; simp [emitOnEdge]
  | succ n ih => intro k; simp [emitOnEdge, List.range'_succ, ih]

/-- The resampling walk emits exactly the density multiples strictly inside
the remaining polyline, each located at its exact arc-length position. -/
theorem walkEdges_eq (d : ℚ) (hd : 0 < d) :
    ∀ (pts : List Point) (c : ℚ) (k : ℕ), c ≤ (k : ℚ) * d →
      walkEdges d pts c k =
        (List.range' k (ratCeil ((c + polylineLength pts) / d) - (k : ℤ)).toNat).map
          (fun (m : ℕ) => pointAtArc pts ((m : ℚ) * d - c)) := by
  intro pts
  induction pts with
  | nil =>
    intro c k hck
    have h1 : ratCeil ((c + polylineLength []) / d) ≤ (k : ℤ) := by
      rw [ratCeil_eq, Int.ceil_le]
      simp only [polylineLength, add_zero]
      rw [div_le_iff₀ hd]
      exact_mod_cast hck
    simp [walkEdges, Int.toNat_of_nonpos (by omega : ratCeil ((c + polylineLength []) / d) - (k : ℤ) ≤ 0)]
  | cons p rest ih =>
    cases rest with
    | nil =>
      intro c k hck
      have h1 : ratCeil ((c + polylineLength [p]) / d) ≤ (k : ℤ) := by
        rw [ratCeil_eq, Int.ceil_le]
        simp only [polylineLength, add_zero]
        rw [div_le_iff₀ hd]
        exact_mod_cast hck
      simp [walkEdges, Int.toNat_of_nonpos (by omega : ratCeil ((c + polylineLength [p]) / d) - (k : ℤ) ≤ 0)]
    | cons q rest' =>
      intro c k hck
      have hlen : 0 ≤ edist p q := edist_nonneg p q
      have hT : 0 ≤ polylineLength (q :: rest') := polylineLength_nonneg _
      have hn : crossingCount c (edist p q) d k =
          (ratCeil ((c + edist p q) / d) - (k : ℤ)).toNat := rfl
      have hkn : c + edist p q ≤ ((k + (ratCeil ((c + edist p q) / d) - (k : ℤ)).toNat : ℕ) : ℚ) * d := by
        rcases le_or_lt (ratCeil ((c + edist p q) / d)) (k : ℤ) with h | h
        · have hn0 : (ratCeil ((c + edist p q) / d) - (k : ℤ)).toNat = 0 := by omega
          rw [hn0]
          have h2 : ((c + edist p q) / d) ≤ ((k : ℤ) : ℚ) := by
            rw [ratCeil_eq, Int.ceil_le] at h
            exact h
          rw [div_le_iff₀ hd] at h2
          simpa using h2
        · have hk2 : ((k : ℤ) + (ratCeil ((c + edist p q) / d) - (k : ℤ)).toNat)
              = ratCeil ((c + edist p q) / d) := by omega
          have h2 : ((c + edist p q) / d) ≤ ((ratCeil ((c + edist p q) / d) : ℤ) : ℚ) := by
            rw [ratCeil_eq]
            exact Int.le_ceil _
          rw [div_le_iff₀ hd] at h2
          calc c + edist p q ≤ ((ratCeil ((c + edist p q) / d) : ℤ) : ℚ) * d := h2
            _ = (((k : ℤ) + (ratCeil ((c + edist p q) / d) - (k : ℤ)).toNat : ℤ) : ℚ) * d := by
                rw [hk2]
            _ = ((k + (ratCeil ((c + edist p q) / d) - (k : ℤ)).toNat : ℕ) : ℚ) * d := by
                norm_cast
      have hemit : (List.range' k (ratCeil ((c + edist p q) / d) - (k : ℤ)).toNat).map
            (fun (m : ℕ) => lerp p q (((m : ℚ) * d - c) / edist p q)) =
          (List.range' k (ratCeil ((c + edist p q) / d) - (k : ℤ)).toNat).map
            (fun (m : ℕ) => pointAtArc (p :: q :: rest') ((m : ℚ) * d - c)) := by
        apply List.map_congr_left
        intro m hm
        rw [List.mem_range'_1] at hm
        have hma : (m : ℤ) < ratCeil ((c + edist p q) / d) := by omega
        have hmq : (m : ℚ) * d - c < edist p q := by
          rw [ratCeil_eq] at hma
          have := Int.lt_ceil.mp hma
          rw [lt_div_iff₀ hd] at this
          push_cast at this
          linarith
        simp only [pointAtArc, if_pos hmq]
      have hrest : ∀ n2 : ℕ, (List.range' (k + (ratCeil ((c + edist p q) / d) - (k : ℤ)).toNat) n2).map
            (fun (m : ℕ) => pointAtArc (q :: rest') ((m : ℚ) * d - (c + edist p q))) =
          (List.range' (k + (ratCeil ((c + edist p q) / d) - (k : ℤ)).toNat) n2).map
            (fun (m : ℕ) => pointAtArc (p :: q :: rest') ((m : ℚ) * d - c)) := by
        intro n2
        apply List.map_congr_left
        intro m hm
        rw [List.mem_range'_1] at hm
        have hmk : ((k + (ratCeil ((c + edist p q) / d) - (k : ℤ)).toNat : ℕ) : ℚ) ≤ (m : ℚ) := by
          exact_mod_cast hm.1
        have hge : c + edist p q ≤ (m : ℚ) * d := by
          calc c + edist p q ≤ ((k + (ratCeil ((c + edist p q) / d) - (k : ℤ)).toNat : ℕ) : ℚ) * d := hkn
            _ ≤ (m : ℚ) * d := by
              apply mul_le_mul_of_nonneg_right hmk (le_of_lt hd)
        have hnotlt : ¬((m : ℚ) * d - c < edist p q) := by linarith
        simp only [pointAtArc, if_neg hnotlt]
        congr 1
        ring
      simp only [walkEdges, crossingCount]
      rw [emitOnEdge_eq, hemit, ih (c + edist p q)
        (k + (ratCeil ((c + edist p q) / d) - (k : ℤ)).toNat) hkn, hrest,
        ← List.map_append]
      have hab : ratCeil ((c + edist p q) / d)
          ≤ ratCeil ((c + edist p q + polylineLength (q :: rest')) / d) := by
        rw [ratCeil_eq, ratCeil_eq]
        apply Int.ceil_le_ceil
        exact (div_le_div_iff_of_pos_right hd).mpr (by linarith)
      have hsplit : (ratCeil ((c + edist p q) / d) - (k : ℤ)).toNat
            + (ratCeil ((c + edist p q + polylineLength (q :: rest')) / d)
                - ((k + (ratCeil ((c + edist p q) / d) - (k : ℤ)).toNat : ℕ) : ℤ)).toNat
          = (ratCeil ((c + edist p q + polylineLength (q :: rest')) / d) - (k : ℤ)).toNat := by
        omega
      rw [show polylineLength (p :: q :: rest') = edist p q + polylineLength (q :: rest')
        from rfl, ← add_assoc, List.range'_append_1]
      congr 2
      omega

/-! ## Concrete evaluations on the demonstration path -/

theorem demoSegA_estimatedLength : demoSegA.estimatedLength = 2 := by
  norm_num [Segment.estimatedLength, probeResolution, List.range_succ, demoSegA, Segment.point,
    Control.pos, lerp, edist, ratSqrt, natSqrt, isqrtGo]

theorem demoSegA_stepCount : demoSegA.stepCount (3 / 2) = 2 := by
  norm_num [Segment.stepCount, demoSegA_estimatedLength, ratCeil, ratFloor]
  decide

theorem demoSegA_samples : demoSegA.samples (3 / 2) = [(0, 0), (1, 0), (2, 0)] := by
  simp only [Segment.samples, demoSegA_stepCount]
  norm_num [List.range_succ, demoSegA, Segment.point, Control.pos, lerp]

theorem demoSegB_estimatedLength : demoSegB.estimatedLength = 2 := by
  norm_num [Segment.estimatedLength, probeResolution, List.range_succ, demoSegB, Segment.point,
    Control.pos, lerp, edist, ratSqrt, natSqrt, isqrtGo]

theorem demoSegB_stepCount : demoSegB.stepCount (3 / 2) = 2 := by
  norm_num [Segment.stepCount, demoSegB_estimatedLength, ratCeil, ratFloor]
  decide

theorem demoSegB_samples : demoSegB.samples (3 / 2) = [(2, 0), (1, 0), (0, 0)] := by
  simp only [Segment.samples, demoSegB_stepCount]
  norm_num [List.range_succ, demoSegB, Segment.point, Control.pos, lerp]

theorem outAndBack_sample :
    sample outAndBackPath (3 / 2) = [(0, 0), (1, 0), (2, 0), (1, 0), (0, 0)] := by
  simp [sample, outAndBackPath, demoSegA_samples, demoSegB_samples]

theorem outAndBack_walk :
    walkEdges (3 / 2) [(0, 0), (1, 0), (2, 0), (1, 0), (0, 0)] 0 1 = [(3 / 2, 0), (1, 0)] := by
  norm_num [walkEdges, crossingCount, ratCeil, ratFloor, emitOnEdge, edist, ratSqrt, natSqrt,
    isqrtGo, lerp]

theorem outAndBack_resample :
    resampleUniform (sample outAndBackPath (3 / 2)) (3 / 2)
      = [(0, 0), (3 / 2, 0), (1, 0), (0, 0)] := by
  rw [outAndBack_sample]
  simp only [resampleUniform, outAndBack_walk]
  simp [List.getLast]

/-! ## Claim C1 -/

/-- C1, amended: for every path and positive density, the output of
`resampleUniform(sample(P, d), d)` is the literal first raw point, then one
point for every multiple m·d of the density lying strictly inside the raw
polyline's total length, each placed by interpolation exactly at arc-length
position m·d along the raw polyline, then the literal last raw point.
Consecutive interior points are therefore exactly d apart in arc length (the
claim's Euclidean-distance reading fails: see the counterexample). -/
theorem c1_uniform_points_at_arc_multiples (P : Path) (d : ℚ) (hd : 0 < d)
    (p : Point) (rest : List Point) (hs : sample P d = p :: rest) :
    resampleUniform (sample P d) d =
      p :: ((List.range' 1 (ratCeil (polylineLength (p :: rest) / d) - 1).toNat).map
          (fun (m : ℕ) => pointAtArc (p :: rest) ((m : ℚ) * d))
        ++ [(p :: rest).getLast (List.cons_ne_nil p rest)]) := by
  rw [hs]
  simp only [resampleUniform]
  rw [walkEdges_eq d hd (p :: rest) 0 1 (by simpa using le_of_lt hd)]
  simp only [zero_add, sub_zero, Nat.cast_one]

/-- C1, counterexample to the claim as stated: on the out-and-back path with
density 3/2 the output is [(0,0), (3/2,0), (1,0), (0,0)]; the second and
third points are consecutive and are not the pair before the final point,
yet their Euclidean distance is 1/2, not the density 3/2 (the deviation, 1,
is no floating-point tolerance). -/
theorem c1_counterexample :
    resampleUniform (sample outAndBackPath (3 / 2)) (3 / 2)
        = [(0, 0), (3 / 2, 0), (1, 0), (0, 0)] ∧
      edist (3 / 2, 0) (1, 0) = 1 / 2 ∧ ((1 / 2 : ℚ) ≠ 3 / 2) := by
  refine ⟨outAndBack_resample, ?_, by norm_num⟩
  norm_num [edist, ratSqrt, natSqrt, isqrtGo]

/-- Witness for C1 at the demonstration path and density 3/2. -/
theorem c1_uniform_points_at_arc_multiples_witness :
    resampleUniform (sample outAndBackPath (3 / 2)) (3 / 2) =
      (0, 0) :: ((List.range' 1
            (ratCeil (polylineLength [(0, 0), (1, 0), (2, 0), (1, 0), (0, 0)] / (3 / 2))
              - 1).toNat).map
          (fun (m : ℕ) => pointAtArc [(0, 0), (1, 0), (2, 0), (1, 0), (0, 0)] ((m : ℚ) * (3 / 2)))
        ++ [List.getLast [(0, 0), (1, 0), (2, 0), (1, 0), (0, 0)]
              (List.cons_ne_nil (0, 0) [(1, 0), (2, 0), (1, 0), (0, 0)])]) :=
  c1_uniform_points_at_arc_multiples outAndBackPath (3 / 2) (by norm_num)
    (0, 0) [(1, 0), (2, 0), (1, 0), (0, 0)] outAndBack_sample


/-! ## Claim C7 -/

theorem uolScale_pos (u : UnitOfLength) : 0 < uolScale u := by
  cases u <;> norm_num [uolScale]

/-- C7: converting a scalar or a Vector from length unit A to unit B with the
UnitConverter and back from B to A returns exactly the original value, hence
a value within every floating-point tolerance ε of it. -/
theorem c7_unit_conversion_roundtrip (a b : UnitOfLength) (x : ℚ) (v : Point) :
    (UnitConverter.mk b a).fromAtoB ((UnitConverter.mk a b).fromAtoB x) = x ∧
    (UnitConverter.mk b a).fromAtoBVec ((UnitConverter.mk a b).fromAtoBVec v) = v := by
  have ha : uolScale a ≠ 0 := ne_of_gt (uolScale_pos a)
  have hb : uolScale b ≠ 0 := ne_of_gt (uolScale_pos b)
  have hs : ∀ y : ℚ, (UnitConverter.mk b a).fromAtoB ((UnitConverter.mk a b).fromAtoB y) = y := by
    intro y
    simp only [UnitConverter.fromAtoB]
    field_simp
  refine ⟨hs x, ?_⟩
  simp only [UnitConverter.fromAtoBVec]
  rw [hs v.1, hs v.2]

/-! ## Claim C10 -/

/-- C10: `Modals.open(symbol, priority)` returns true and installs the symbol
exactly when no modal is open or the open priority is at most the requested
priority; otherwise it returns false and changes nothing.  `Modals.close`
clears the opening modal only when called with no argument or with the
currently opening symbol. -/
theorem c10_modals_open_close (s : ModalsState) (sym : ℕ) (pr : ℚ) :
    ((s.opening = none ∨ ∃ op, s.opening = some op ∧ op.2 ≤ pr) →
      (modalsOpen s sym pr).1 = true ∧ (modalsOpen s sym pr).2.opening = some (sym, pr)) ∧
    (∀ op, s.opening = some op → pr < op.2 →
      (modalsOpen s sym pr).1 = false ∧ (modalsOpen s sym pr).2 = s) ∧
    (modalsClose s none).opening = none ∧
    (∀ y, s.opening.map Prod.fst ≠ some y → modalsClose s (some y) = s) ∧
    (∀ y op, s.opening = some op → op.1 = y → (modalsClose s (some y)).opening = none) := by
  refine ⟨?_, ?_, ?_, ?_, ?_⟩
  · intro h
    match hs : s.opening with
    | none => simp [modalsOpen, hs]
    | some op =>
      rcases h with h | ⟨op2, hop2, hle⟩
      · rw [hs] at h; cases h
      · rw [hs] at hop2
        cases hop2
        simp [modalsOpen, hs, if_pos hle]
  · intro op hop hlt
    simp [modalsOpen, hop, if_neg (not_le.mpr hlt)]
  · simp [modalsClose]
  · intro y hy
    simp only [modalsClose]
    rw [if_neg hy]
  · intro y op hop hy
    simp [modalsClose, hop, hy]

/-- Witness for C10: a concrete open at equal priority succeeds and replaces
the modal; a lower-priority open fails and changes nothing; closing with a
foreign symbol changes nothing; closing with the open symbol clears it. -/
theorem c10_modals_open_close_witness :
    (modalsOpen ⟨some (1, 5)⟩ 2 5).1 = true ∧
    (modalsOpen ⟨some (1, 5)⟩ 2 5).2.opening = some (2, 5) ∧
    (modalsOpen ⟨some (1, 7)⟩ 2 5).1 = false ∧
    (modalsOpen ⟨some (1, 7)⟩ 2 5).2 = ⟨some (1, 7)⟩ ∧
    modalsClose ⟨some (1, 7)⟩ (some 3) = ⟨some (1, 7)⟩ ∧
    (modalsClose ⟨some (1, 7)⟩ (some 1)).opening = none := by
  have h1 := (c10_modals_open_close ⟨some (1, 5)⟩ 2 5).1
    (Or.inr ⟨(1, 5), rfl, by norm_num⟩)
  have h2 := (c10_modals_open_close ⟨some (1, 7)⟩ 2 5).2.1 (1, 7) rfl (by norm_num)
  have h3 := (c10_modals_open_close ⟨some (1, 7)⟩ 2 5).2.2.2.1 3 (by simp)
  have h4 := (c10_modals_open_close ⟨some (1, 7)⟩ 2 5).2.2.2.2 1 (1, 7) rfl rfl
  exact ⟨h1.1, h1.2, h2.1, h2.2, h3, h4⟩

/-! ## Claims C3 and C6 -/

/-- C6: `undo()` on an empty `done` log and `redo()` on an empty `undone`
log are no-ops; otherwise `undo()` pops the last entry of `done`, runs its
inverse on the model, and pushes it onto `undone`, leaving the saved marker
unchanged. -/
theorem c6_undo_redo_noop_or_pop {σ : Type} (s : HistoryState σ) :
    (s.hist.done = [] → undo s = s) ∧
    (s.hist.undone = [] → redo s = s) ∧
    (∀ ds c, s.hist.done = ds ++ [c] →
      undo s = ⟨c.inverse s.model, ⟨ds, s.hist.undone ++ [c], s.hist.savedMarker⟩⟩) := by
  refine ⟨?_, ?_, ?_⟩
  · intro h
    simp [undo, h]
  · intro h
    simp [redo, h]
  · intro ds c h
    have hl : s.hist.done.getLast? = some c := by rw [h]; simp
    have hd : s.hist.done.dropLast = ds := by rw [h]; simp
    simp [undo, hl, hd]

/-- Witness for C6 at a concrete state: a real undo pops and inverts, and
undo/redo on empty logs change nothing. -/
theorem c6_undo_redo_noop_or_pop_witness :
    (undo ⟨(5 : ℤ), ⟨[incCmd], [], some 0⟩⟩).model = 4 ∧
    (undo ⟨(5 : ℤ), ⟨[incCmd], [], some 0⟩⟩).hist.done = [] ∧
    (undo ⟨(5 : ℤ), ⟨[incCmd], [], some 0⟩⟩).hist.undone = [incCmd] ∧
    undo ⟨(5 : ℤ), ⟨[], [], some 0⟩⟩ = ⟨5, ⟨[], [], some 0⟩⟩ ∧
    redo ⟨(5 : ℤ), ⟨[], [], some 0⟩⟩ = ⟨5, ⟨[], [], some 0⟩⟩ := by
  have h := (c6_undo_redo_noop_or_pop ⟨(5 : ℤ), ⟨[incCmd], [], some 0⟩⟩).2.2 [] incCmd rfl
  have h1 := (c6_undo_redo_noop_or_pop ⟨(5 : ℤ), ⟨[], [], some 0⟩⟩).1 rfl
  have h2 := (c6_undo_redo_noop_or_pop ⟨(5 : ℤ), ⟨[], [], some 0⟩⟩).2.1 rfl
  refine ⟨?_, ?_, ?_, h1, h2⟩ <;> rw [h] <;> norm_num [incCmd]

/-- Truncating, appending and truncating again is the same as truncating the
whole concatenation. -/
theorem drop_length_sub_append {α : Type} (m : ℕ) (l l2 : List α) :
    ((l.drop (l.length - m)) ++ l2).drop ((l.drop (l.length - m)).length + l2.length - m)
      = (l ++ l2).drop (l.length + l2.length - m) := by
  rw [List.drop_append_eq_append_drop, List.drop_append_eq_append_drop, List.drop_drop]
  congr 2
  · simp [List.length_drop]
    omega
  · simp [List.length_drop]
    omega

/-- The model after executing a command list is the fold of the applies. -/
theorem executeList_model {σ : Type} (maxSize : ℕ) :
    ∀ (cs : List (Command σ)) (s : HistoryState σ),
      (executeList maxSize cs s).model = cs.foldl (fun d c => c.apply d) s.model := by
  intro cs
  induction cs with
  | nil => intro s; rfl
  | cons c cs ih =>
    intro s
    rw [show executeList maxSize (c :: cs) s = executeList maxSize cs (execute maxSize c s)
      from rfl, ih]
    rfl

/-- After executing a nonempty command list, the `done` log is the previous
log followed by the executed commands, truncated to the maximum size. -/
theorem executeList_done {σ : Type} (maxSize : ℕ) :
    ∀ (cs : List (Command σ)) (s : HistoryState σ), cs ≠ [] →
      (executeList maxSize cs s).hist.done
        = (s.hist.done ++ cs).drop (s.hist.done.length + cs.length - maxSize) := by
  intro cs
  induction cs with
  | nil => intro s h; cases h rfl
  | cons c cs ih =>
    intro s _
    rw [show executeList maxSize (c :: cs) s = executeList maxSize cs (execute maxSize c s)
      from rfl]
    cases cs with
    | nil =>
      simp [executeList, execute]
    | cons c2 cs2 =>
      rw [ih (execute maxSize c s) (by simp)]
      have hde : (execute maxSize c s).hist.done
          = (s.hist.done ++ [c]).drop ((s.hist.done ++ [c]).length - maxSize) := rfl
      rw [hde]
      have := drop_length_sub_append maxSize (s.hist.done ++ [c]) (c2 :: cs2)
      simp only [List.length_append, List.length_cons] at this ⊢
      rw [this]
      simp only [List.append_assoc, List.singleton_append, List.length_append,
        List.length_cons, List.length_nil]
      congr 2
      omega

/-- Undoing as many times as a command suffix is long inverts exactly that
suffix. -/
theorem undoTimes_restore {σ : Type} :
    ∀ (cs : List (Command σ)) (t : HistoryState σ) (pre : List (Command σ)) (base : σ),
      t.hist.done = pre ++ cs → t.model = cs.foldl (fun d c => c.apply d) base →
      (undoTimes cs.length t).model = base := by
  intro cs
  induction cs using List.reverseRecOn with
  | nil =>
    intro t pre base h1 h2
    simpa [undoTimes] using h2
  | append_singleton cs c ih =>
    intro t pre base h1 h2
    have hl : t.hist.done.getLast? = some c := by
      rw [h1, ← List.append_assoc]
      simp
    have hd : t.hist.done.dropLast = pre ++ cs := by
      rw [h1, ← List.append_assoc]
      simp
    have hu : undo t
        = ⟨c.inverse t.model, ⟨pre ++ cs, t.hist.undone ++ [c], t.hist.savedMarker⟩⟩ := by
      simp [undo, hl, hd]
    have hlen : (cs ++ [c]).length = cs.length + 1 := by simp
    rw [hlen, show undoTimes (cs.length + 1) t = undoTimes cs.length (undo t) from rfl]
    apply ih (undo t) pre base
    · rw [hu]
    · rw [hu, h2, List.foldl_append]
      simp [c.inverse_apply]

/-- C3, amended: provided the number N of executed commands does not exceed
the history cap, N executes followed by N undos restore the initial model
exactly; and `isModified()` is false precisely when the saved marker equals
the current `done` position.  (As stated, without the cap bound, the claim
fails: see the counterexample.) -/
theorem c3_execute_undo_roundtrip {σ : Type} (maxSize : ℕ) (cs : List (Command σ))
    (s : HistoryState σ) (hlen : cs.length ≤ maxSize) :
    (undoTimes cs.length (executeList maxSize cs s)).model = s.model ∧
    (∀ t : HistoryState σ,
      isModified t.hist = false ↔ t.hist.savedMarker = some t.hist.done.length) := by
  constructor
  · cases cs with
    | nil => simp [executeList, undoTimes]
    | cons c cs2 =>
      have hdone := executeList_done maxSize (c :: cs2) s (by simp)
      have hk : s.hist.done.length + (c :: cs2).length - maxSize ≤ s.hist.done.length := by
        simp only [List.length_cons] at hlen ⊢
        omega
      have hsplit : (s.hist.done ++ (c :: cs2)).drop
            (s.hist.done.length + (c :: cs2).length - maxSize)
          = s.hist.done.drop (s.hist.done.length + (c :: cs2).length - maxSize) ++ (c :: cs2) := by
        rw [List.drop_append_eq_append_drop]
        congr 1
        rw [Nat.sub_eq_zero_of_le hk]
        rfl
      exact undoTimes_restore (c :: cs2) _ _ s.model (hdone.trans hsplit)
        (executeList_model maxSize (c :: cs2) s)
  · intro t
    simp [isModified]

/-- Witness for C3 at cap 1 with a single increment command. -/
theorem c3_execute_undo_roundtrip_witness :
    (undoTimes (List.length [incCmd]) (executeList 1 [incCmd] demoHistState)).model
        = demoHistState.model ∧
    (∀ t : HistoryState ℤ,
      isModified t.hist = false ↔ t.hist.savedMarker = some t.hist.done.length) :=
  c3_execute_undo_roundtrip 1 [incCmd] demoHistState (by norm_num)

/-- C3 counterexample to the claim as stated: with history cap 1, executing
two increments and undoing twice leaves the model at 1, not the initial 0 —
the first increment's history entry was truncated away, so the second undo
is a no-op. -/
theorem c3_counterexample :
    (undoTimes 2 (executeList 1 [incCmd, incCmd] demoHistState)).model = 1 ∧
    demoHistState.model = 0 ∧ ((1 : ℤ) ≠ 0) := by
  refine ⟨?_, rfl, by norm_num⟩
  norm_num [executeList, execute, undoTimes, undo, demoHistState, incCmd]


/-! ## Claims C2 and C4 -/

theorem relinkRest_chain :
    ∀ (l : List Segment) (a : Segment),
      List.Chain (fun x y => y.first = x.last) a (relinkRest a.last l) := by
  intro l
  induction l with
  | nil => intro a; exact List.Chain.nil
  | cons t rest ih =>
    intro a
    simp only [relinkRest]
    exact List.Chain.cons rfl (ih { t with first := a.last })

theorem relinkSegments_chain' (l : List Segment) :
    List.Chain' (fun x y => y.first = x.last) (relinkSegments l) := by
  cases l with
  | nil => trivial
  | cons s rest => exact relinkRest_chain rest s

theorem relinkSegments_adjacent (l : List Segment) (j : ℕ)
    (hj : j + 1 < (relinkSegments l).length) :
    ((relinkSegments l).get ⟨j + 1, hj⟩).first
      = ((relinkSegments l).get ⟨j, Nat.lt_of_succ_lt hj⟩).last := by
  have h := List.chain'_iff_get.mp (relinkSegments_chain' l) j (by omega)
  exact h

theorem relinkRest_length : ∀ (l : List Segment) (prev : Control),
    (relinkRest prev l).length = l.length := by
  intro l
  induction l with
  | nil => intro prev; rfl
  | cons t rest ih =>
    intro prev
    show (relinkRest prev (t :: rest)).length = (t :: rest).length
    simp only [relinkRest, List.length_cons, ih]

theorem relinkSegments_length (l : List Segment) :
    (relinkSegments l).length = l.length := by
  cases l with
  | nil => rfl
  | cons s rest => simp only [relinkSegments, List.length_cons, relinkRest_length]

theorem relinkRest_last : ∀ (l : List Segment) (prev : Control) (j : ℕ),
    ((relinkRest prev l).get? j).map Segment.last = (l.get? j).map Segment.last := by
  intro l
  induction l with
  | nil => intro prev j; rfl
  | cons t rest ih =>
    intro prev j
    cases j with
    | zero => rfl
    | succ j => exact ih _ j

theorem relinkSegments_last (l : List Segment) (j : ℕ) :
    ((relinkSegments l).get? j).map Segment.last = (l.get? j).map Segment.last := by
  cases l with
  | nil => rfl
  | cons s rest =>
    cases j with
    | zero => rfl
    | succ j => exact relinkRest_last rest s.last j

theorem relinkRest_first : ∀ (l : List Segment) (prev : Control) (j : ℕ), j < l.length →
    ((relinkRest prev l).get? j).map Segment.first
      = (prev :: l.map Segment.last).get? j := by
  intro l
  induction l with
  | nil => intro prev j hj; cases hj
  | cons t rest ih =>
    intro prev j hj
    cases j with
    | zero => rfl
    | succ j => exact ih t.last j (by simpa using hj)

theorem relinkSegments_first (l : List Segment) (j : ℕ) (hj : j + 1 < l.length) :
    ((relinkSegments l).get? (j + 1)).map Segment.first = (l.get? j).map Segment.last := by
  cases l with
  | nil => cases hj
  | cons s rest =>
    have h := relinkRest_first rest s.last j (by simpa using hj)
    cases j with
    | zero => exact h
    | succ j =>
      rw [show ((relinkSegments (s :: rest)).get? (j + 1 + 1)).map Segment.first
          = ((relinkRest s.last rest).get? (j + 1)).map Segment.first from rfl, h]
      cases rest with
      | nil => simp at hj
      | cons t rest2 => cases j <;> simp

theorem jsDedupGo_mem : ∀ (l seen : List ℕ) (x : ℕ),
    x ∈ jsDedupGo seen l ↔ x ∈ l ∧ x ∉ seen := by
  intro l
  induction l with
  | nil => intro seen x; simp [jsDedupGo]
  | cons y ys ih =>
    intro seen x
    by_cases hy : y ∈ seen
    · simp only [jsDedupGo, if_pos hy, ih, List.mem_cons]
      constructor
      · tauto
      · rintro ⟨h1 | h1, h2⟩
        · subst h1; exact absurd hy h2
        · exact ⟨h1, h2⟩
    · simp only [jsDedupGo, if_neg hy, List.mem_cons, ih]
      constructor
      · rintro (rfl | ⟨h1, h2⟩)
        · exact ⟨Or.inl rfl, hy⟩
        · exact ⟨Or.inr h1, fun hx => h2 (Or.inr hx)⟩
      · rintro ⟨h1 | h1, h2⟩
        · tauto
        · by_cases hxy : x = y
          · tauto
          · right
            exact ⟨h1, fun hx => Or.elim hx hxy h2⟩

theorem jsDedupGo_nodup : ∀ (l seen : List ℕ), (jsDedupGo seen l).Nodup := by
  intro l
  induction l with
  | nil => intro seen; simp [jsDedupGo]
  | cons y ys ih =>
    intro seen
    by_cases hy : y ∈ seen
    · simpa [jsDedupGo, if_pos hy] using ih seen
    · simp only [jsDedupGo, if_neg hy]
      refine List.nodup_cons.mpr ⟨?_, ih (y :: seen)⟩
      intro hmem
      exact ((jsDedupGo_mem ys (y :: seen) y).mp hmem).2 (List.mem_cons_self y seen)

theorem jsDedup_mem (l : List ℕ) (x : ℕ) : x ∈ jsDedup l ↔ x ∈ l := by
  simp [jsDedup, jsDedupGo_mem]

theorem jsDedup_nodup (l : List ℕ) : (jsDedup l).Nodup :=
  jsDedupGo_nodup l []

/-- C2: after a document load (`setPathFileData`), in every loaded path each
pair of adjacent segments shares its endpoint: segment i+1's first control
equals — as a whole record, uid (the identity) included — segment i's last
control. -/
theorem c2_loaded_paths_share_segment_endpoints {σ : Type} (s : MainAppState σ)
    (f : Format) (pfd : PathFileData) :
    ∀ P ∈ (setPathFileData s f pfd).paths, ∀ (j : ℕ) (hj : j + 1 < P.segments.length),
      (P.segments.get ⟨j + 1, hj⟩).first
        = (P.segments.get ⟨j, Nat.lt_of_succ_lt hj⟩).last := by
  intro P hP j hj
  have hP2 : P ∈ pfd.paths.map loadPath := hP
  rcases List.mem_map.mp hP2 with ⟨q, _, rfl⟩
  exact relinkSegments_adjacent _ j hj

/-- Witness for C2 at a concrete loaded document. -/
theorem c2_loaded_paths_share_segment_endpoints_witness :
    (((loadPath outAndBackPath).segments).get ⟨1, by decide⟩).first
      = (((loadPath outAndBackPath).segments).get ⟨0, by decide⟩).last :=
  c2_loaded_paths_share_segment_endpoints demoAppState demoFormat demoPFD
    (loadPath outAndBackPath) (by simp [setPathFileData, demoPFD, resetFieldDisplay, resetUserControl]) 0 (by decide)

/-- C4, amended: the loader never rejects a path and re-links purely by
order.  All paths are loaded (count preserved), each path keeps its segment
count and every segment's last control, and each segment's first control
after the first segment is overwritten with the previous segment's original
last control — regardless of whether the coordinates matched. -/
theorem c4_loader_never_rejects {σ : Type} (s : MainAppState σ) (f : Format)
    (pfd : PathFileData) :
    (setPathFileData s f pfd).paths.length = pfd.paths.length ∧
    (∀ i : ℕ, ((setPathFileData s f pfd).paths.get? i).map (fun P => P.segments.length)
        = (pfd.paths.get? i).map (fun P => P.segments.length)) ∧
    (∀ i j : ℕ,
      ((setPathFileData s f pfd).paths.get? i).map
          (fun P => (P.segments.get? j).map Segment.last)
        = (pfd.paths.get? i).map (fun P => (P.segments.get? j).map Segment.last)) ∧
    (∀ P2 ∈ pfd.paths, ∀ j : ℕ, j + 1 < P2.segments.length →
      ((loadPath P2).segments.get? (j + 1)).map Segment.first
        = (P2.segments.get? j).map Segment.last) := by
  have hpaths : (setPathFileData s f pfd).paths = pfd.paths.map loadPath := rfl
  refine ⟨by rw [hpaths]; simp, ?_, ?_, ?_⟩
  · intro i
    rw [hpaths, List.get?_map]
    cases pfd.paths.get? i with
    | none => rfl
    | some P =>
      show some (loadPath P).segments.length = some P.segments.length
      exact congrArg some (relinkSegments_length P.segments)
  · intro i j
    rw [hpaths, List.get?_map]
    cases pfd.paths.get? i with
    | none => rfl
    | some P =>
      show some ((((loadPath P).segments).get? j).map Segment.last)
        = some ((P.segments.get? j).map Segment.last)
      exact congrArg some (relinkSegments_last P.segments j)
  · intro P2 _ j hj
    exact relinkSegments_first P2.segments j hj

/-- C4, counterexample to the claim as stated: a path whose adjacent
segments disagree in coordinates (so re-linking by coordinate+order is not
possible) is still loaded — the path list has length 1 — and its second
segment's first control has simply been overwritten with the first
segment's last control (uid 2 at (1,1)). -/
theorem c4_counterexample :
    (setPathFileData demoAppState demoFormat mismatchedPFD).paths.length = 1 ∧
    (mismatchedPath.segments.get? 0).map Segment.last = some ⟨2, 1, 1, true, false⟩ ∧
    (mismatchedPath.segments.get? 1).map Segment.first = some ⟨3, 5, 5, true, false⟩ ∧
    ((setPathFileData demoAppState demoFormat mismatchedPFD).paths.get? 0).map
        (fun P => (P.segments.get? 1).map Segment.first)
      = some (some ⟨2, 1, 1, true, false⟩) :=
  ⟨rfl, rfl, rfl, rfl⟩

/-- Witness for C4 at the mismatched path file. -/
theorem c4_loader_never_rejects_witness :
    (setPathFileData demoAppState demoFormat mismatchedPFD).paths.length
        = mismatchedPFD.paths.length ∧
    ((loadPath mismatchedPath).segments.get? 1).map Segment.first
        = (mismatchedPath.segments.get? 0).map Segment.last := by
  refine ⟨(c4_loader_never_rejects demoAppState demoFormat mismatchedPFD).1, ?_⟩
  exact (c4_loader_never_rejects demoAppState demoFormat mismatchedPFD).2.2.2
    mismatchedPath (by simp [mismatchedPFD]) 0 (by decide)

/-! ## Claim C5 -/

/-- C5: `newPathFile`, `setPathFileData` (the import path) and the format
reaction (for a user switch, whose new format is not yet initialized) all
leave the history cleared: `done`/`undone` empty and the saved marker reset
so that nothing counts as modified. -/
theorem c5_history_cleared_on_new_import_switch {σ : Type} (s : MainAppState σ)
    (f : Format) (pfd : PathFileData) (oldF : Format) :
    (newPathFile s).history = CommandHistory.cleared ∧
    isModified (newPathFile s).history = false ∧
    (setPathFileData s f pfd).history = CommandHistory.cleared ∧
    isModified (setPathFileData s f pfd).history = false ∧
    (s.format.isInit = false →
      (formatReaction oldF s).history = CommandHistory.cleared ∧
      isModified (formatReaction oldF s).history = false) := by
  refine ⟨rfl, rfl, rfl, rfl, ?_⟩
  intro h
  constructor
  · simp [formatReaction, h, resetUserControl]
  · simp [formatReaction, h, resetUserControl, isModified, CommandHistory.cleared]

/-- Witness for C5's format-reaction conjunct at the demonstration state. -/
theorem c5_history_cleared_witness :
    (formatReaction demoOldFormat demoAppState).history = CommandHistory.cleared ∧
    isModified (formatReaction demoOldFormat demoAppState).history = false :=
  (c5_history_cleared_on_new_import_switch demoAppState demoFormat demoPFD demoOldFormat).2.2.2.2
    rfl

/-! ## Claim C9 -/

/-- C9, amended: when the format reaction handles a user format switch, the
resulting general config's pointDensity equals the new format's own
pointDensity from before the reaction (it is shielded from the unit
conversion — but it does not equal the old config's value, see the
counterexample); every path keeps its bentRateApplicableRange; and
robotWidth/robotHeight are copied from the old format's general config,
converted to the new config's unit of length. -/
theorem c9_format_reaction_keeps {σ : Type} (oldF : Format) (s : MainAppState σ)
    (h : s.format.isInit = false) :
    (formatReaction oldF s).format.gc.pointDensity = s.format.gc.pointDensity ∧
    (∀ i : ℕ, ((formatReaction oldF s).paths.get? i).map
          (fun p => p.pc.bentRateApplicableRange)
        = (s.paths.get? i).map (fun p => p.pc.bentRateApplicableRange)) ∧
    (formatReaction oldF s).format.gc.robotWidth
      = (UnitConverter.mk oldF.gc.uol s.format.gc.uol).fromAtoB oldF.gc.robotWidth ∧
    (formatReaction oldF s).format.gc.robotHeight
      = (UnitConverter.mk oldF.gc.uol s.format.gc.uol).fromAtoB oldF.gc.robotHeight := by
  refine ⟨?_, ?_, ?_, ?_⟩
  · simp [formatReaction, h, resetUserControl, convertGeneralConfigUOL, Format.init]
  · intro i
    simp only [formatReaction, h, Bool.false_eq_true, if_false, resetUserControl,
      List.get?_map]
    cases s.paths.get? i with
    | none => rfl
    | some P =>
      simp [convertPathConfigPointDensity, Format.buildPathConfig]
  · simp [formatReaction, h, resetUserControl, convertGeneralConfigUOL, Format.init]
  · simp [formatReaction, h, resetUserControl, convertGeneralConfigUOL, Format.init]

/-- Witness for C9 at the demonstration formats. -/
theorem c9_format_reaction_keeps_witness :
    (formatReaction demoOldFormat demoAppState).format.gc.pointDensity
        = demoAppState.format.gc.pointDensity ∧
    (∀ i : ℕ, ((formatReaction demoOldFormat demoAppState).paths.get? i).map
          (fun p => p.pc.bentRateApplicableRange)
        = (demoAppState.paths.get? i).map (fun p => p.pc.bentRateApplicableRange)) ∧
    (formatReaction demoOldFormat demoAppState).format.gc.robotWidth
      = (UnitConverter.mk demoOldFormat.gc.uol demoAppState.format.gc.uol).fromAtoB
          demoOldFormat.gc.robotWidth ∧
    (formatReaction demoOldFormat demoAppState).format.gc.robotHeight
      = (UnitConverter.mk demoOldFormat.gc.uol demoAppState.format.gc.uol).fromAtoB
          demoOldFormat.gc.robotHeight :=
  c9_format_reaction_keeps demoOldFormat demoAppState rfl

/-- C9, counterexample to the claim as stated: before the switch the
general config's pointDensity is the old format's, 5; after the reaction it
is the new format's default 2. -/
theorem c9_counterexample :
    (formatReaction demoOldFormat demoAppState).format.gc.pointDensity = 2 ∧
    demoOldFormat.gc.pointDensity = 5 ∧ ((2 : ℚ) ≠ 5) := by
  refine ⟨rfl, rfl, by norm_num⟩

/-! ## Claim C8 -/

/-- C8: after `startAreaSelection` and `updateAreaSelection(from, to)`, the
selected ids are exactly — duplicate-free — the symmetric difference of the
selection saved at `startAreaSelection` and the uids of the controls that
are visible, unlocked, belong to a visible unlocked path, and lie in the
rectangle spanned by the two corners; and the result does not depend on the
order of the two corners. -/
theorem c8_area_selection_symmetric_difference {σ : Type} (s : MainAppState σ) (a b : Point) :
    (∀ u : ℕ, u ∈ (updateAreaSelection (startAreaSelection s) a b).selected ↔
      ((u ∈ s.selected ∧ u ∉ areaHighlight s a b) ∨
       (u ∈ areaHighlight s a b ∧ u ∉ s.selected))) ∧
    (updateAreaSelection (startAreaSelection s) a b).selected.Nodup ∧
    updateAreaSelection (startAreaSelection s) a b
      = updateAreaSelection (startAreaSelection s) b a := by
  refine ⟨?_, ?_, ?_⟩
  · intro u
    rw [show (updateAreaSelection (startAreaSelection s) a b).selected
        = jsDedup ((s.selected ++ areaHighlight s a b).filter
            (fun uid => !(decide (uid ∈ s.selected) && decide (uid ∈ areaHighlight s a b))))
        from rfl]
    rw [jsDedup_mem, List.mem_filter]
    simp only [List.mem_append, Bool.not_eq_true', Bool.and_eq_true, decide_eq_true_eq,
      Bool.and_eq_false_iff, decide_eq_false_iff_not]
    constructor
    · tauto
    · tauto
  · exact jsDedup_nodup _
  · simp only [updateAreaSelection, startAreaSelection]
    rw [min_comm a.1 b.1, min_comm a.2 b.2, max_comm a.1 b.1, max_comm a.2 b.2]

end PathJerryio
